import Mathlib

/-!
Verification of the room-TTL lifecycle manager
(`src/BE/src/game/redis/game-redis-memory.service.ts`).

Keys of the external key-value store are modelled as lists of characters
(`Str`), so that the service's key parsing (JavaScript `split(':')`) can be
embedded and reasoned about directly.  The store itself is a record of the
set of existing keys, the set-membership function (`SMEMBERS`) and the
per-key TTL.  Transport failures of the store client are injected through
explicit fault records, one flag per store round trip, mirroring the points
at which the service awaits the Redis client.
-/

/-- Keys and identifiers of the TypeScript service are JavaScript strings;
they are embedded as lists of characters. -/
abbrev Str := List Char

/-! Modelled from the spec: the key layout of `REDIS_KEY`
(`src/BE/src/common/constants/redis-key.constant`, a file the repository
snapshot does not include under `src/`); the shapes follow the key naming
convention of the specification: `Room:{roomId}`, `Room:{roomId}:Players`,
`Room:{roomId}:Leaderboard`, `Room:{roomId}:CurrentQuiz`,
`Player:{playerId}`, `Room:{roomId}:QuizSet`, `Room:{roomId}:Quiz:{quizId}`,
`Room:{roomId}:Quiz:{quizId}:Choices`. -/
namespace REDIS_KEY

def ROOM (roomId : Str) : Str := ['R', 'o', 'o', 'm', ':'] ++ roomId

def ROOM_PLAYERS (roomId : Str) : Str :=
  ROOM roomId ++ [':', 'P', 'l', 'a', 'y', 'e', 'r', 's']

def ROOM_LEADERBOARD (roomId : Str) : Str :=
  ROOM roomId ++ [':', 'L', 'e', 'a', 'd', 'e', 'r', 'b', 'o', 'a', 'r', 'd']

def ROOM_CURRENT_QUIZ (roomId : Str) : Str :=
  ROOM roomId ++ [':', 'C', 'u', 'r', 'r', 'e', 'n', 't', 'Q', 'u', 'i', 'z']

def PLAYER (playerId : Str) : Str := ['P', 'l', 'a', 'y', 'e', 'r', ':'] ++ playerId

def ROOM_QUIZ_SET (roomId : Str) : Str :=
  ROOM roomId ++ [':', 'Q', 'u', 'i', 'z', 'S', 'e', 't']

def ROOM_QUIZ (roomId quizId : Str) : Str :=
  ROOM roomId ++ [':', 'Q', 'u', 'i', 'z', ':'] ++ quizId

def ROOM_QUIZ_CHOICES (roomId quizId : Str) : Str :=
  ROOM_QUIZ roomId quizId ++ [':', 'C', 'h', 'o', 'i', 'c', 'e', 's']

end REDIS_KEY

/-! The service's TTL classes, in seconds
(`private readonly TTL` of `GameRedisMemoryService`). -/
namespace TTL

def ROOM : Nat := 3 * 60 * 60

def PLAYER : Nat := 2 * 60 * 60

def QUIZ : Nat := 1 * 60 * 60

def LEADERBOARD : Nat := 3 * 60 * 60

end TTL

/-- `private readonly BATCH_SIZE = 100`. -/
def BATCH_SIZE : Nat := 100

/-- The external Redis store, restricted to what the service touches:
which keys exist (`live`), the members of each set key (`members`,
meaningful for live keys only) and the time-to-live of each key. -/
structure Store where
  live : List Str
  members : Str → List Str
  ttl : Str → Option Nat

/-- Redis `SMEMBERS`: the members of a live set key; a key that does not
exist reads as the empty set. -/
def smembers (s : Store) (k : Str) : List Str :=
  if k ∈ s.live then s.members k else []

/-- Redis `EXPIRE key t`: sets the TTL of an existing key; a no-op on a
key that does not exist (Redis returns 0 and changes nothing). -/
def expire (s : Store) (k : Str) (t : Nat) : Store :=
  if k ∈ s.live then
    { s with ttl := fun j => if j = k then some t else s.ttl j }
  else s

/-- Executing a pipelined batch of `EXPIRE` commands in order
(`pipeline.exec()` applied to the queued commands). -/
def expireAll (s : Store) : List (Str × Nat) → Store
  | [] => s
  | c :: cs => expireAll (expire s c.1 c.2) cs

/-- A store round trip that fails does so with a transport error. -/
inductive Err where
  | transport

/-- JavaScript `roomKey.split(':')`, character-list version: splits on every
colon, keeping empty segments (`"Room:".split(':') = ["Room", ""]`,
`"".split(':') = [""]`). -/
def splitOnColon : Str → List Str
  | [] => [[]]
  | c :: cs =>
    if c = ':' then [] :: splitOnColon cs
    else
      match splitOnColon cs with
      | [] => [[c]]
      | seg :: segs => (c :: seg) :: segs

/-- `const roomId = roomKey.split(':')[1]; if (!roomId) continue;` —
the identifier is the segment after the first colon; a missing segment
(`undefined`) or an empty one (falsy `""`) is rejected. -/
def parseRoomId (roomKey : Str) : Option Str :=
  match (splitOnColon roomKey).get? 1 with
  | none => none
  | some seg => if seg = [] then none else some seg

/-- The four base derived keys of a room (`baseKeys` local of
`processBatch`): record, player set, leaderboard, current-quiz pointer. -/
def baseKeys (roomId : Str) : List Str :=
  [REDIS_KEY.ROOM roomId, REDIS_KEY.ROOM_PLAYERS roomId,
   REDIS_KEY.ROOM_LEADERBOARD roomId, REDIS_KEY.ROOM_CURRENT_QUIZ roomId]

/-- The pipeline `processBatch` accumulates over a page of room keys:
for each key whose identifier parses, an `EXPIRE` with the `ROOM` class
for each of the four base keys; keys that do not parse contribute
nothing. -/
def processBatchPipeline (rooms : List Str) : List (Str × Nat) :=
  rooms.foldl
    (fun pipeline roomKey =>
      match parseRoomId roomKey with
      | none => pipeline
      | some roomId => pipeline ++ (baseKeys roomId).map (fun key => (key, TTL.ROOM)))
    []

/-- `processBatch(rooms)`: builds one pipeline over the whole page and
executes it in a single round trip; `execFail` injects a transport failure
of that single `pipeline.exec()`.  On success it returns the updated store
together with the batch that was submitted. -/
def processBatch (execFail : Bool) (rooms : List Str) (s : Store) :
    Except Err (Store × List (Str × Nat)) :=
  let pipeline := processBatchPipeline rooms
  if execFail then Except.error Err.transport
  else Except.ok (expireAll s pipeline, pipeline)

/-- Transport-fault injection for one `setRoomTTL` call: one flag per store
round trip awaited by the three sub-tasks (the base sub-task's
`pipeline.exec()`, the player sub-task's `smembers` and `exec`, the quiz
sub-task's `smembers` and `exec`). -/
structure Fault where
  baseExec : Bool
  playersSmembers : Bool
  playersExec : Bool
  quizSmembers : Bool
  quizExec : Bool

/-- The fault schedule with no failures. -/
def noFault : Fault := ⟨false, false, false, false, false⟩

/-- Body of `setPlayersTTL` before its `try/catch`: read the room's player
set, queue a `PLAYER`-class `EXPIRE` per member, execute the pipeline.
Returns the updated store and the batch that was submitted. -/
def setPlayersTTLRun (f : Fault) (roomId : Str) (s : Store) :
    Except Err (Store × List (Str × Nat)) :=
  if f.playersSmembers then Except.error Err.transport
  else
    let players := smembers s (REDIS_KEY.ROOM_PLAYERS roomId)
    let pipeline := players.map (fun playerId => (REDIS_KEY.PLAYER playerId, TTL.PLAYER))
    if f.playersExec then Except.error Err.transport
    else Except.ok (expireAll s pipeline, pipeline)

/-- `setPlayersTTL`: the body wrapped in the method's own `try/catch` —
an error is logged and swallowed, leaving the store as it was; the list
collects the batches that were actually executed. -/
def setPlayersTTL (f : Fault) (roomId : Str) (s : Store) :
    Store × List (List (Str × Nat)) :=
  match setPlayersTTLRun f roomId s with
  | Except.ok (s', pipeline) => (s', [pipeline])
  | Except.error _ => (s, [])

/-- Body of `setQuizTTL` before its `try/catch`: read the room's quiz set,
queue `QUIZ`-class `EXPIRE`s for each quiz's record and choices keys,
execute the pipeline. -/
def setQuizTTLRun (f : Fault) (roomId : Str) (s : Store) :
    Except Err (Store × List (Str × Nat)) :=
  if f.quizSmembers then Except.error Err.transport
  else
    let quizList := smembers s (REDIS_KEY.ROOM_QUIZ_SET roomId)
    let pipeline := quizList.flatMap
      (fun quizId =>
        [(REDIS_KEY.ROOM_QUIZ roomId quizId, TTL.QUIZ),
         (REDIS_KEY.ROOM_QUIZ_CHOICES roomId quizId, TTL.QUIZ)])
    if f.quizExec then Except.error Err.transport
    else Except.ok (expireAll s pipeline, pipeline)

/-- `setQuizTTL`: the body wrapped in the method's own `try/catch`. -/
def setQuizTTL (f : Fault) (roomId : Str) (s : Store) :
    Store × List (List (Str × Nat)) :=
  match setQuizTTLRun f roomId s with
  | Except.ok (s', pipeline) => (s', [pipeline])
  | Except.error _ => (s, [])

/-- What one `setRoomTTL` call produces: the final store, the pipelined
batches that were actually executed (in order), and the settled outcome of
each of the three sub-task promises (`true` = fulfilled). -/
structure RefreshResult where
  store : Store
  flushed : List (List (Str × Nat))
  outcomes : List Bool

/-- The three sub-tasks of `setRoomTTL`, as settled by
`Promise.allSettled`: the base sub-task is `processBatch` on the one-room
page `[REDIS_KEY.ROOM(roomId)]` and carries no `try/catch` of its own, so
its rejection is recorded as a rejected outcome; the player and quiz
sub-tasks catch internally and always fulfil.  A rejected sub-task leaves
its effects unapplied but never prevents the remaining sub-tasks from
running. -/
def setRoomTTLRun (f : Fault) (roomId : Str) (s : Store) : RefreshResult :=
  let base := processBatch f.baseExec [REDIS_KEY.ROOM roomId] s
  let s1 := match base with
    | Except.ok (s', _) => s'
    | Except.error _ => s
  let fl1 : List (List (Str × Nat)) := match base with
    | Except.ok (_, pipeline) => [pipeline]
    | Except.error _ => []
  let b1 := match base with
    | Except.ok _ => true
    | Except.error _ => false
  let p := setPlayersTTL f roomId s1
  let q := setQuizTTL f roomId p.1
  ⟨q.1, fl1 ++ p.2 ++ q.2, [b1, true, true]⟩

/-- `setRoomTTL(roomId)` (the spec's `refreshRoom`): awaits
`Promise.allSettled` over the three sub-tasks and returns normally —
`allSettled` never rejects, so no error ever crosses this boundary. -/
def setRoomTTL (f : Fault) (roomId : Str) (s : Store) : Except Err RefreshResult :=
  Except.ok (setRoomTTLRun f roomId s)

/-- Whether a key matches the `Room:*` glob of the service's `SCAN` call. -/
def startsRoom : Str → Bool
  | 'R' :: 'o' :: 'o' :: 'm' :: ':' :: _ => true
  | _ => false

/-- The keys of the store matching the `Room:*` pattern. -/
def roomKeysOf (s : Store) : List Str := s.live.filter startsRoom

/-- One `SCAN cursor MATCH Room:* COUNT BATCH_SIZE` call against a static
keyspace: returns the next page of up to `BATCH_SIZE` room keys and the
next cursor; cursor `0` is the start and terminal sentinel (the string
`'0'` in the source). -/
def scanPage (s : Store) (cursor : Nat) : Nat × List Str :=
  let ks := roomKeysOf s
  ((if ks.length ≤ cursor + BATCH_SIZE then 0 else cursor + BATCH_SIZE),
   (ks.drop cursor).take BATCH_SIZE)

/-- Transport-fault injection for one sweep: per loop iteration, whether
the `scan` round trip fails and whether that iteration's
`processBatch` pipeline execution fails. -/
structure SweepFault where
  scanFail : Nat → Bool
  execFail : Nat → Bool

/-- The sweep fault schedule with no failures. -/
def noSweepFault : SweepFault := ⟨fun _ => false, fun _ => false⟩

/-- Result of the `do … while (cursor !== '0')` loop inside `manageTTL`:
the store after the pages that were expired, the room keys of the pages
that were successfully processed, and the exception (if any) that escaped
the loop. -/
structure SweepResult where
  store : Store
  visited : List Str
  err : Option Err

/-- The `do … while (cursor !== '0')` loop of `manageTTL`: scan a page,
expire it when non-empty, continue until the cursor returns to the start
sentinel.  A failing round trip aborts the remaining iterations and
surfaces as the loop's exception.  `fuel` bounds the number of iterations;
`manageTTL` always supplies enough for the loop to reach the sentinel. -/
def sweepGo (f : SweepFault) (s : Store) (cursor idx : Nat) : Nat → SweepResult
  | 0 => ⟨s, [], none⟩
  | fuel + 1 =>
    if f.scanFail idx then ⟨s, [], some Err.transport⟩
    else
      let pr := scanPage s cursor
      if pr.2.length > 0 then
        match processBatch (f.execFail idx) pr.2 s with
        | Except.error e => ⟨s, [], some e⟩
        | Except.ok (s', _) =>
          if pr.1 = 0 then ⟨s', pr.2, none⟩
          else
            let r := sweepGo f s' pr.1 (idx + 1) fuel
            ⟨r.store, pr.2 ++ r.visited, r.err⟩
      else
        if pr.1 = 0 then ⟨s, [], none⟩
        else
          let r := sweepGo f s pr.1 (idx + 1) fuel
          ⟨r.store, r.visited, r.err⟩

/-- `manageTTL()` (the periodic sweep): runs the scan/expire loop from the
start sentinel and wraps it in `try { … } catch (error) { logger.error }` —
whatever the loop raises is logged and swallowed, so the scheduler never
sees an error (second component `none`). -/
def manageTTL (f : SweepFault) (s : Store) : Store × Option Err :=
  let r := sweepGo f s 0 0 ((roomKeysOf s).length + 1)
  (r.store, none)

/-- The room keys expired by one `manageTTL` invocation under fault
schedule `f`, pages concatenated in scan order. -/
def sweepVisited (f : SweepFault) (s : Store) : List Str :=
  (sweepGo f s 0 0 ((roomKeysOf s).length + 1)).visited

/-- The value the last `EXPIRE` enqueued for key `k` in `cmds` would set,
if any. -/
def lastVal : List (Str × Nat) → Str → Option Nat
  | [], _ => none
  | c :: cs, k =>
    match lastVal cs k with
    | some v => some v
    | none => if c.1 = k then some c.2 else none

/-- The prefix of an identifier before its first colon (what
`split(':')[1]` recovers from `Room:{roomId}`). -/
def takeUntilColon : Str → Str
  | [] => []
  | c :: cs => if c = ':' then [] else c :: takeUntilColon cs

/-! Basic store lemmas: `EXPIRE` touches only `ttl`, and the TTL after a
pipelined batch is decided by the last command queued for the key. -/

lemma live_expire (s : Store) (k : Str) (t : Nat) : (expire s k t).live = s.live := by
  unfold expire; split <;> rfl

lemma members_expire (s : Store) (k : Str) (t : Nat) :
    (expire s k t).members = s.members := by
  unfold expire; split <;> rfl

lemma ttl_expire (s : Store) (k : Str) (t : Nat) (j : Str) :
    (expire s k t).ttl j = if k ∈ s.live ∧ j = k then some t else s.ttl j := by
  unfold expire
  by_cases hk : k ∈ s.live
  · simp only [hk, if_pos, true_and]
  · simp [hk]

lemma live_expireAll (s : Store) (cmds : List (Str × Nat)) :
    (expireAll s cmds).live = s.live := by
  induction cmds generalizing s with
  | nil => rfl
  | cons c cs ih => rw [expireAll, ih, live_expire]

lemma members_expireAll (s : Store) (cmds : List (Str × Nat)) :
    (expireAll s cmds).members = s.members := by
  induction cmds generalizing s with
  | nil => rfl
  | cons c cs ih => rw [expireAll, ih, members_expire]

lemma smembers_expireAll (s : Store) (cmds : List (Str × Nat)) (k : Str) :
    smembers (expireAll s cmds) k = smembers s k := by
  unfold smembers
  rw [live_expireAll, members_expireAll]

lemma expireAll_append (s : Store) (a b : List (Str × Nat)) :
    expireAll s (a ++ b) = expireAll (expireAll s a) b := by
  induction a generalizing s with
  | nil => rfl
  | cons c cs ih => rw [List.cons_append, expireAll, expireAll, ih]

lemma expireAll_of_dead (s : Store) (cmds : List (Str × Nat))
    (h : ∀ c ∈ cmds, c.1 ∉ s.live) : expireAll s cmds = s := by
  induction cmds with
  | nil => rfl
  | cons c cs ih =>
    have hc : c.1 ∉ s.live := h c (List.mem_cons_self c cs)
    rw [expireAll, expire, if_neg hc]
    exact ih (fun d hd => h d (List.mem_cons_of_mem c hd))

lemma lastVal_append (a b : List (Str × Nat)) (k : Str) :
    lastVal (a ++ b) k =
      match lastVal b k with
      | some v => some v
      | none => lastVal a k := by
  induction a with
  | nil => cases h : lastVal b k <;> simp [lastVal, h]
  | cons c cs ih =>
    rw [List.cons_append, lastVal, ih, lastVal]
    cases lastVal b k <;> cases lastVal cs k <;> simp

lemma lastVal_eq_none (cmds : List (Str × Nat)) (k : Str)
    (h : ∀ c ∈ cmds, c.1 ≠ k) : lastVal cmds k = none := by
  induction cmds with
  | nil => rfl
  | cons c cs ih =>
    rw [lastVal, ih (fun d hd => h d (List.mem_cons_of_mem c hd))]
    simp [h c (List.mem_cons_self c cs)]

lemma lastVal_const (cmds : List (Str × Nat)) (k : Str) (v : Nat)
    (hmem : k ∈ cmds.map Prod.fst) (hval : ∀ c ∈ cmds, c.2 = v) :
    lastVal cmds k = some v := by
  induction cmds with
  | nil => simp at hmem
  | cons c cs ih =>
    rw [lastVal]
    by_cases hcs : k ∈ cs.map Prod.fst
    · rw [ih hcs (fun d hd => hval d (List.mem_cons_of_mem c hd))]
    · have hk : c.1 = k := by
        rcases List.mem_map.mp hmem with ⟨d, hd, hdk⟩
        rcases List.mem_cons.mp hd with h1 | h2
        · rw [h1] at hdk; exact hdk
        · exact absurd (List.mem_map.mpr ⟨d, h2, hdk⟩) hcs
      have : lastVal cs k = none := by
        apply lastVal_eq_none
        intro d hd hdk
        exact hcs (List.mem_map.mpr ⟨d, hd, hdk⟩)
      rw [this, if_pos hk, hval c (List.mem_cons_self c cs)]

lemma ttl_expireAll (s : Store) (cmds : List (Str × Nat)) (k : Str) :
    (expireAll s cmds).ttl k =
      if k ∈ s.live then
        match lastVal cmds k with
        | some v => some v
        | none => s.ttl k
      else s.ttl k := by
  induction cmds generalizing s with
  | nil => rw [lastVal]; split <;> rfl
  | cons c cs ih =>
    rw [expireAll, ih, lastVal, live_expire, ttl_expire]
    by_cases hk : k ∈ s.live
    · by_cases hck : c.1 = k
      · cases h : lastVal cs k <;> simp [hk, hck, h]
      · have hkc : ¬k = c.1 := fun h => hck h.symm
        cases h : lastVal cs k <;> simp [hk, hck, hkc, h]
    · have hck : ¬(c.1 ∈ s.live ∧ k = c.1) := by
        rintro ⟨h1, h2⟩; rw [h2] at hk; exact hk h1
      cases h : lastVal cs k <;> simp [hk, hck, h]

/-! Parsing lemmas: `split(':')` on a constructed `Room:{roomId}` key
recovers the part of `roomId` before its first colon. -/

lemma splitOnColon_ne_nil (l : Str) : splitOnColon l ≠ [] := by
  match l with
  | [] => simp [splitOnColon]
  | c :: cs =>
    rw [splitOnColon]
    by_cases h : c = ':'
    · simp [h]
    · cases hs : splitOnColon cs <;> simp [h, hs]

lemma splitOnColon_colon (l : Str) : splitOnColon (':' :: l) = [] :: splitOnColon l := by
  rw [splitOnColon]; simp

lemma splitOnColon_cons_of_ne (c : Char) (l : Str) (h : ¬c = ':') :
    splitOnColon (c :: l) =
      match splitOnColon l with
      | [] => [[c]]
      | seg :: segs => (c :: seg) :: segs := by
  rw [splitOnColon]; simp [h]

lemma splitOnColon_get0 (l : Str) : (splitOnColon l).get? 0 = some (takeUntilColon l) := by
  induction l with
  | nil => rfl
  | cons c cs ih =>
    by_cases h : c = ':'
    · subst h; rw [splitOnColon_colon, takeUntilColon]; simp
    · rw [splitOnColon_cons_of_ne c cs h, takeUntilColon, if_neg h]
      cases hs : splitOnColon cs with
      | nil => exact absurd hs (splitOnColon_ne_nil cs)
      | cons seg segs =>
        rw [hs] at ih
        simp only [List.get?] at ih ⊢
        rw [Option.some.injEq] at ih
        rw [ih]

lemma splitOnColon_ROOM (roomId : Str) :
    splitOnColon (REDIS_KEY.ROOM roomId) = ['R', 'o', 'o', 'm'] :: splitOnColon roomId := by
  have h1 : splitOnColon (':' :: roomId) = [] :: splitOnColon roomId :=
    splitOnColon_colon roomId
  have h2 : splitOnColon ('m' :: ':' :: roomId) = ['m'] :: splitOnColon roomId := by
    rw [splitOnColon_cons_of_ne _ _ (by decide), h1]
  have h3 : splitOnColon ('o' :: 'm' :: ':' :: roomId) = ['o', 'm'] :: splitOnColon roomId := by
    rw [splitOnColon_cons_of_ne _ _ (by decide), h2]
  have h4 : splitOnColon ('o' :: 'o' :: 'm' :: ':' :: roomId)
      = ['o', 'o', 'm'] :: splitOnColon roomId := by
    rw [splitOnColon_cons_of_ne _ _ (by decide), h3]
  show splitOnColon ('R' :: 'o' :: 'o' :: 'm' :: ':' :: roomId) = _
  rw [splitOnColon_cons_of_ne _ _ (by decide), h4]

lemma parseRoomId_ROOM (roomId : Str) :
    parseRoomId (REDIS_KEY.ROOM roomId) =
      if takeUntilColon roomId = [] then none else some (takeUntilColon roomId) := by
  unfold parseRoomId
  rw [splitOnColon_ROOM]
  have : (['R', 'o', 'o', 'm'] :: splitOnColon roomId).get? 1 = (splitOnColon roomId).get? 0 := rfl
  rw [this, splitOnColon_get0]

lemma takeUntilColon_of_no_colon (roomId : Str) (h : ':' ∉ roomId) :
    takeUntilColon roomId = roomId := by
  induction roomId with
  | nil => rfl
  | cons c cs ih =>
    rw [takeUntilColon]
    have hc : ¬c = ':' := fun hh => h (hh ▸ List.mem_cons_self c cs)
    rw [if_neg hc, ih (fun hm => h (List.mem_cons_of_mem c hm))]

lemma parseRoomId_ROOM_of_plain (roomId : Str) (h : ':' ∉ roomId) (hne : roomId ≠ []) :
    parseRoomId (REDIS_KEY.ROOM roomId) = some roomId := by
  rw [parseRoomId_ROOM, takeUntilColon_of_no_colon roomId h, if_neg hne]

/-! The page pipeline: the imperative fold equals the per-key flat map,
and the one-room page of `setRoomTTL` in particular. -/

lemma foldl_append_eq_flatMap {α β : Type} (g : α → List β) (l : List α) (a : List β) :
    l.foldl (fun acc x => acc ++ g x) a = a ++ l.flatMap g := by
  induction l generalizing a with
  | nil => simp
  | cons x xs ih => simp [List.foldl, ih, List.append_assoc]

lemma processBatchPipeline_eq_flatMap (rooms : List Str) :
    processBatchPipeline rooms = rooms.flatMap
      (fun roomKey =>
        match parseRoomId roomKey with
        | none => []
        | some roomId => (baseKeys roomId).map (fun key => (key, TTL.ROOM))) := by
  unfold processBatchPipeline
  have : (fun (pipeline : List (Str × Nat)) (roomKey : Str) =>
      match parseRoomId roomKey with
      | none => pipeline
      | some roomId => pipeline ++ (baseKeys roomId).map (fun key => (key, TTL.ROOM)))
    = fun pipeline roomKey => pipeline ++
        (match parseRoomId roomKey with
         | none => []
         | some roomId => (baseKeys roomId).map (fun key => (key, TTL.ROOM))) := by
    funext pipeline roomKey
    cases parseRoomId roomKey <;> simp
  rw [this, foldl_append_eq_flatMap, List.nil_append]

lemma processBatchPipeline_single (k : Str) :
    processBatchPipeline [k] =
      match parseRoomId k with
      | none => []
      | some roomId => (baseKeys roomId).map (fun key => (key, TTL.ROOM)) := by
  rw [processBatchPipeline_eq_flatMap]
  cases h : parseRoomId k <;> simp [h]

lemma processBatchPipeline_ROOM (roomId : Str) (h : ':' ∉ roomId) (hne : roomId ≠ []) :
    processBatchPipeline [REDIS_KEY.ROOM roomId]
      = (baseKeys roomId).map (fun key => (key, TTL.ROOM)) := by
  rw [processBatchPipeline_single, parseRoomId_ROOM_of_plain roomId h hne]

/-! Disjointness of the derived-key families: player records live under
`Player:`, while a room's base keys can never collide with its quiz-derived
keys. -/

lemma PLAYER_ne_ROOM_append (p roomId tail : Str) :
    REDIS_KEY.PLAYER p ≠ REDIS_KEY.ROOM roomId ++ tail := by
  intro h
  simp only [REDIS_KEY.PLAYER, REDIS_KEY.ROOM, List.cons_append, List.cons.injEq] at h
  exact absurd h.1 (by decide)

lemma colon_ne_quiz_tail (c : Char) (rest q : Str) (hc : c ≠ 'Q') :
    (':' :: c :: rest) ≠ [':', 'Q', 'u', 'i', 'z', ':'] ++ q := by
  intro h
  simp only [List.cons_append, List.nil_append, List.cons.injEq] at h
  exact absurd h.2.1 hc

lemma baseKey_ne_quizKey (roomId quizId : Str) :
    ∀ b ∈ baseKeys roomId,
      b ≠ REDIS_KEY.ROOM_QUIZ roomId quizId ∧
      b ≠ REDIS_KEY.ROOM_QUIZ_CHOICES roomId quizId := by
  intro b hb
  have hlen : ∀ x y : Str, x.length ≠ y.length → x ≠ y := by
    intro x y hxy h; exact hxy (h ▸ rfl)
  have hq : REDIS_KEY.ROOM_QUIZ roomId quizId
      = REDIS_KEY.ROOM roomId ++ ([':', 'Q', 'u', 'i', 'z', ':'] ++ quizId) := by
    simp [REDIS_KEY.ROOM_QUIZ, List.append_assoc]
  have hqc : REDIS_KEY.ROOM_QUIZ_CHOICES roomId quizId
      = REDIS_KEY.ROOM roomId
        ++ ([':', 'Q', 'u', 'i', 'z', ':']
            ++ (quizId ++ [':', 'C', 'h', 'o', 'i', 'c', 'e', 's'])) := by
    simp [REDIS_KEY.ROOM_QUIZ_CHOICES, REDIS_KEY.ROOM_QUIZ, List.append_assoc]
  have cancel : ∀ (a b : Str), a ≠ b →
      REDIS_KEY.ROOM roomId ++ a ≠ REDIS_KEY.ROOM roomId ++ b := by
    intro a b hab h; exact hab (List.append_cancel_left h)
  simp only [baseKeys, List.mem_cons, List.not_mem_nil, or_false] at hb
  rcases hb with hb | hb | hb | hb <;> subst hb <;> constructor
  · rw [hq]
    apply hlen
    simp [REDIS_KEY.ROOM, List.length_append]
  · rw [hqc]
    apply hlen
    simp [REDIS_KEY.ROOM, List.length_append]
  · rw [REDIS_KEY.ROOM_PLAYERS, hq]
    exact cancel _ _ (colon_ne_quiz_tail 'P' _ quizId (by decide))
  · rw [REDIS_KEY.ROOM_PLAYERS, hqc]
    exact cancel _ _ (colon_ne_quiz_tail 'P' _ _ (by decide))
  · rw [REDIS_KEY.ROOM_LEADERBOARD, hq]
    exact cancel _ _ (colon_ne_quiz_tail 'L' _ quizId (by decide))
  · rw [REDIS_KEY.ROOM_LEADERBOARD, hqc]
    exact cancel _ _ (colon_ne_quiz_tail 'L' _ _ (by decide))
  · rw [REDIS_KEY.ROOM_CURRENT_QUIZ, hq]
    exact cancel _ _ (colon_ne_quiz_tail 'C' _ quizId (by decide))
  · rw [REDIS_KEY.ROOM_CURRENT_QUIZ, hqc]
    exact cancel _ _ (colon_ne_quiz_tail 'C' _ _ (by decide))

lemma baseKey_ne_playerKey (roomId p : Str) :
    ∀ b ∈ baseKeys roomId, REDIS_KEY.PLAYER p ≠ b := by
  intro b hb
  simp only [baseKeys, List.mem_cons, List.not_mem_nil, or_false] at hb
  rcases hb with hb | hb | hb | hb <;> subst hb
  · have := PLAYER_ne_ROOM_append p roomId []
    rw [List.append_nil] at this
    exact this
  · exact PLAYER_ne_ROOM_append p roomId _
  · exact PLAYER_ne_ROOM_append p roomId _
  · exact PLAYER_ne_ROOM_append p roomId _

lemma playerKey_ne_quizKey (p roomId quizId : Str) :
    REDIS_KEY.PLAYER p ≠ REDIS_KEY.ROOM_QUIZ roomId quizId ∧
    REDIS_KEY.PLAYER p ≠ REDIS_KEY.ROOM_QUIZ_CHOICES roomId quizId := by
  constructor
  · have h : REDIS_KEY.ROOM_QUIZ roomId quizId
        = REDIS_KEY.ROOM roomId ++ ([':', 'Q', 'u', 'i', 'z', ':'] ++ quizId) := by
      simp [REDIS_KEY.ROOM_QUIZ, List.append_assoc]
    rw [h]; exact PLAYER_ne_ROOM_append p roomId _
  · have h : REDIS_KEY.ROOM_QUIZ_CHOICES roomId quizId
        = REDIS_KEY.ROOM roomId
          ++ ([':', 'Q', 'u', 'i', 'z', ':']
              ++ (quizId ++ [':', 'C', 'h', 'o', 'i', 'c', 'e', 's'])) := by
      simp [REDIS_KEY.ROOM_QUIZ_CHOICES, REDIS_KEY.ROOM_QUIZ, List.append_assoc]
    rw [h]; exact PLAYER_ne_ROOM_append p roomId _

/-! Invariance: no operation of the service creates or deletes keys, or
changes set membership — only TTLs move. -/

lemma setPlayersTTL_live (f : Fault) (roomId : Str) (s : Store) :
    (setPlayersTTL f roomId s).1.live = s.live := by
  unfold setPlayersTTL setPlayersTTLRun
  cases f.playersSmembers <;> cases f.playersExec <;> simp [live_expireAll]

lemma setPlayersTTL_members (f : Fault) (roomId : Str) (s : Store) :
    (setPlayersTTL f roomId s).1.members = s.members := by
  unfold setPlayersTTL setPlayersTTLRun
  cases f.playersSmembers <;> cases f.playersExec <;> simp [members_expireAll]

lemma setQuizTTL_live (f : Fault) (roomId : Str) (s : Store) :
    (setQuizTTL f roomId s).1.live = s.live := by
  unfold setQuizTTL setQuizTTLRun
  cases f.quizSmembers <;> cases f.quizExec <;> simp [live_expireAll]

lemma setQuizTTL_members (f : Fault) (roomId : Str) (s : Store) :
    (setQuizTTL f roomId s).1.members = s.members := by
  unfold setQuizTTL setQuizTTLRun
  cases f.quizSmembers <;> cases f.quizExec <;> simp [members_expireAll]

lemma setRoomTTLRun_live (f : Fault) (roomId : Str) (s : Store) :
    (setRoomTTLRun f roomId s).store.live = s.live := by
  unfold setRoomTTLRun processBatch
  cases f.baseExec <;>
    simp [setQuizTTL_live, setPlayersTTL_live, live_expireAll]

lemma setRoomTTLRun_members (f : Fault) (roomId : Str) (s : Store) :
    (setRoomTTLRun f roomId s).store.members = s.members := by
  unfold setRoomTTLRun processBatch
  cases f.baseExec <;>
    simp [setQuizTTL_members, setPlayersTTL_members, members_expireAll]

/-- The full command list a fault-free `setRoomTTL(roomId)` submits, read
off the store it starts from: the base page, then the player set's
`PLAYER`-class commands, then the quiz set's `QUIZ`-class commands. -/
def refreshCmds (roomId : Str) (s : Store) : List (Str × Nat) :=
  processBatchPipeline [REDIS_KEY.ROOM roomId]
    ++ (smembers s (REDIS_KEY.ROOM_PLAYERS roomId)).map
         (fun p => (REDIS_KEY.PLAYER p, TTL.PLAYER))
    ++ (smembers s (REDIS_KEY.ROOM_QUIZ_SET roomId)).flatMap
         (fun q => [(REDIS_KEY.ROOM_QUIZ roomId q, TTL.QUIZ),
                    (REDIS_KEY.ROOM_QUIZ_CHOICES roomId q, TTL.QUIZ)])

lemma refreshCmds_expireAll (roomId : Str) (s : Store) (cmds : List (Str × Nat)) :
    refreshCmds roomId (expireAll s cmds) = refreshCmds roomId s := by
  unfold refreshCmds
  rw [smembers_expireAll, smembers_expireAll]

lemma setRoomTTLRun_noFault_store (roomId : Str) (s : Store) :
    (setRoomTTLRun noFault roomId s).store = expireAll s (refreshCmds roomId s) := by
  unfold setRoomTTLRun processBatch setPlayersTTL setPlayersTTLRun setQuizTTL setQuizTTLRun
    noFault refreshCmds
  simp only [Bool.false_eq_true, if_false, smembers_expireAll, expireAll_append]

lemma roomKeysOf_expireAll (s : Store) (cmds : List (Str × Nat)) :
    roomKeysOf (expireAll s cmds) = roomKeysOf s := by
  unfold roomKeysOf; rw [live_expireAll]

lemma sweepGo_live (f : SweepFault) :
    ∀ (fuel : Nat) (s : Store) (cursor idx : Nat),
      (sweepGo f s cursor idx fuel).store.live = s.live := by
  intro fuel
  induction fuel with
  | zero => intro s cursor idx; rfl
  | succ fuel ih =>
    intro s cursor idx
    rw [sweepGo]
    by_cases hscan : f.scanFail idx = true
    · simp [hscan]
    · simp only [hscan, if_false, Bool.false_eq_true]
      by_cases hlen : (scanPage s cursor).2.length > 0
      · simp only [hlen, if_true]
        cases hex : f.execFail idx with
        | true => simp [processBatch, hex]
        | false =>
          simp only [processBatch, hex, Bool.false_eq_true, if_false]
          by_cases hnext : (scanPage s cursor).1 = 0
          · simp [hnext, live_expireAll]
          · simp [hnext, ih, live_expireAll]
      · simp only [hlen, if_false]
        by_cases hnext : (scanPage s cursor).1 = 0
        · simp [hnext]
        · simp [hnext, ih]

lemma sweepGo_noFault_complete :
    ∀ (fuel : Nat) (s : Store) (cursor idx : Nat),
      (roomKeysOf s).length - cursor < fuel →
      (sweepGo noSweepFault s cursor idx fuel).visited = (roomKeysOf s).drop cursor ∧
      (sweepGo noSweepFault s cursor idx fuel).err = none := by
  intro fuel
  induction fuel with
  | zero => intro s cursor idx h; exact absurd h (Nat.not_lt_zero _)
  | succ fuel ih =>
    intro s cursor idx h
    rw [sweepGo]
    have hscan : noSweepFault.scanFail idx = false := rfl
    have hexec : noSweepFault.execFail idx = false := rfl
    simp only [hscan, Bool.false_eq_true, if_false]
    by_cases hA : (roomKeysOf s).length ≤ cursor + BATCH_SIZE
    · have hnext : (scanPage s cursor).1 = 0 := by simp [scanPage, hA]
      have hpage : (scanPage s cursor).2 = (roomKeysOf s).drop cursor := by
        simp only [scanPage]
        exact List.take_of_length_le (by simp [List.length_drop]; omega)
      by_cases hlen : (scanPage s cursor).2.length > 0
      · simp only [hlen, if_true, processBatch, hexec, Bool.false_eq_true, if_false,
          hnext, if_true]
        exact ⟨hpage, trivial⟩
      · simp only [hlen, if_false, hnext, if_true]
        refine ⟨?_, trivial⟩
        have : (scanPage s cursor).2 = [] := by
          cases hp : (scanPage s cursor).2 with
          | nil => rfl
          | cons a l => rw [hp] at hlen; simp at hlen
        rw [this] at hpage
        exact hpage
    · have hnext : (scanPage s cursor).1 = cursor + BATCH_SIZE := by
        simp [scanPage, hA]
      have hplen : (scanPage s cursor).2.length = BATCH_SIZE := by
        simp only [scanPage, List.length_take, List.length_drop]
        omega
      have hlen : (scanPage s cursor).2.length > 0 := by
        rw [hplen]; simp [BATCH_SIZE]
      have hnz : ¬(scanPage s cursor).1 = 0 := by
        rw [hnext]; simp [BATCH_SIZE]
      simp only [hlen, if_true, processBatch, hexec, Bool.false_eq_true, if_false,
        hnz, if_false, hnext]
      have hroom : roomKeysOf (expireAll s (processBatchPipeline (scanPage s cursor).2))
          = roomKeysOf s := roomKeysOf_expireAll s _
      have hrec := ih (expireAll s (processBatchPipeline (scanPage s cursor).2))
        (cursor + BATCH_SIZE) (idx + 1) (by rw [hroom]; omega)
      rw [hroom] at hrec
      refine ⟨?_, hrec.2⟩
      rw [hrec.1]
      have hdd : (roomKeysOf s).drop (cursor + BATCH_SIZE)
          = List.drop BATCH_SIZE ((roomKeysOf s).drop cursor) := by
        rw [List.drop_drop]
      rw [hdd]
      show (scanPage s cursor).2 ++ _ = _
      have hpage : (scanPage s cursor).2 = ((roomKeysOf s).drop cursor).take BATCH_SIZE := rfl
      rw [hpage, List.take_append_drop]

/-! Which batches a `setRoomTTL` call actually submits, sub-task by
sub-task, under any fault schedule that leaves the given sub-task
healthy. -/

lemma smembers_congr (s s' : Store) (hl : s'.live = s.live)
    (hm : s'.members = s.members) (k : Str) : smembers s' k = smembers s k := by
  unfold smembers; rw [hl, hm]

lemma setPlayersTTL_flushed_ok (f : Fault) (roomId : Str) (s : Store)
    (h1 : f.playersSmembers = false) (h2 : f.playersExec = false) :
    (setPlayersTTL f roomId s).2
      = [(smembers s (REDIS_KEY.ROOM_PLAYERS roomId)).map
           (fun p => (REDIS_KEY.PLAYER p, TTL.PLAYER))] := by
  unfold setPlayersTTL setPlayersTTLRun
  simp [h1, h2]

lemma setQuizTTL_flushed_ok (f : Fault) (roomId : Str) (s : Store)
    (h1 : f.quizSmembers = false) (h2 : f.quizExec = false) :
    (setQuizTTL f roomId s).2
      = [(smembers s (REDIS_KEY.ROOM_QUIZ_SET roomId)).flatMap
           (fun q => [(REDIS_KEY.ROOM_QUIZ roomId q, TTL.QUIZ),
                      (REDIS_KEY.ROOM_QUIZ_CHOICES roomId q, TTL.QUIZ)])] := by
  unfold setQuizTTL setQuizTTLRun
  simp [h1, h2]

lemma base_batch_flushed (f : Fault) (roomId : Str) (s : Store)
    (h : f.baseExec = false) :
    processBatchPipeline [REDIS_KEY.ROOM roomId] ∈ (setRoomTTLRun f roomId s).flushed := by
  unfold setRoomTTLRun
  simp only [processBatch, h, Bool.false_eq_true, if_false]
  simp

lemma players_batch_flushed (f : Fault) (roomId : Str) (s : Store)
    (h1 : f.playersSmembers = false) (h2 : f.playersExec = false) :
    (smembers s (REDIS_KEY.ROOM_PLAYERS roomId)).map
        (fun p => (REDIS_KEY.PLAYER p, TTL.PLAYER))
      ∈ (setRoomTTLRun f roomId s).flushed := by
  unfold setRoomTTLRun
  cases hb : f.baseExec with
  | true =>
    simp only [processBatch, hb, if_true]
    rw [setPlayersTTL_flushed_ok f roomId s h1 h2]
    simp
  | false =>
    simp only [processBatch, hb, Bool.false_eq_true, if_false]
    rw [setPlayersTTL_flushed_ok f roomId _ h1 h2, smembers_expireAll]
    simp

lemma quiz_batch_flushed (f : Fault) (roomId : Str) (s : Store)
    (h1 : f.quizSmembers = false) (h2 : f.quizExec = false) :
    (smembers s (REDIS_KEY.ROOM_QUIZ_SET roomId)).flatMap
        (fun q => [(REDIS_KEY.ROOM_QUIZ roomId q, TTL.QUIZ),
                   (REDIS_KEY.ROOM_QUIZ_CHOICES roomId q, TTL.QUIZ)])
      ∈ (setRoomTTLRun f roomId s).flushed := by
  unfold setRoomTTLRun
  cases hb : f.baseExec with
  | true =>
    simp only [processBatch, hb, if_true]
    rw [setQuizTTL_flushed_ok f roomId _ h1 h2,
      smembers_congr s (setPlayersTTL f roomId s).1
        (setPlayersTTL_live f roomId s) (setPlayersTTL_members f roomId s)]
    simp
  | false =>
    simp only [processBatch, hb, Bool.false_eq_true, if_false]
    rw [setQuizTTL_flushed_ok f roomId _ h1 h2]
    have hsm : smembers
        (setPlayersTTL f roomId
          (expireAll s (processBatchPipeline [REDIS_KEY.ROOM roomId]))).1
        (REDIS_KEY.ROOM_QUIZ_SET roomId)
        = smembers s (REDIS_KEY.ROOM_QUIZ_SET roomId) := by
      rw [smembers_congr _ _ (setPlayersTTL_live f roomId _) (setPlayersTTL_members f roomId _),
        smembers_expireAll]
    rw [hsm]
    simp

lemma count_one_of_nodup {α : Type} [BEq α] [LawfulBEq α] (l : List α) (k : α)
    (hnd : l.Nodup) (hk : k ∈ l) : l.count k = 1 := by
  induction l with
  | nil => simp at hk
  | cons a as ih =>
    rw [List.count_cons]
    rcases List.mem_cons.mp hk with h | h
    · subst h
      have hm : k ∉ as := (List.nodup_cons.mp hnd).1
      rw [List.count_eq_zero.mpr hm]
      simp
    · rw [ih (List.nodup_cons.mp hnd).2 h]
      have hne : ¬k = a := by
        rintro rfl; exact (List.nodup_cons.mp hnd).1 h
      have hne2 : ¬a = k := fun hh => hne hh.symm
      simp [hne2]

/-! The claims. -/

/-- C1: for every `roomId`, fault schedule and store state, `setRoomTTL`
(the spec's `refreshRoom`) never raises to its caller: the
`Promise.allSettled` boundary waits for all three sub-tasks to settle and
returns normally, with one settled outcome per sub-task. -/
theorem setRoomTTL_never_raises (f : Fault) (roomId : Str) (s : Store) :
    ∃ r : RefreshResult, setRoomTTL f roomId s = Except.ok r ∧ r.outcomes.length = 3 :=
  ⟨setRoomTTLRun f roomId s, rfl, rfl⟩

/-- C3: any exception inside the sweep is caught by `manageTTL`'s
`try/catch` and never reaches the scheduler (the escaping-error component
is `none` for every fault schedule), and the next invocation starts a
fresh sweep from the start sentinel: run fault-free on the store the
failed sweep left behind, it visits exactly the room keys, from the
beginning. -/
theorem manageTTL_swallows_errors (f : SweepFault) (s : Store) :
    (manageTTL f s).2 = none ∧
    sweepVisited noSweepFault (manageTTL f s).1 = roomKeysOf s := by
  constructor
  · rfl
  · have hlive : (manageTTL f s).1.live = s.live := by
      show (sweepGo f s 0 0 ((roomKeysOf s).length + 1)).store.live = s.live
      exact sweepGo_live f _ s 0 0
    have hroom : roomKeysOf (manageTTL f s).1 = roomKeysOf s := by
      unfold roomKeysOf; rw [hlive]
    have h := sweepGo_noFault_complete ((roomKeysOf (manageTTL f s).1).length + 1)
      (manageTTL f s).1 0 0 (by omega)
    unfold sweepVisited
    rw [h.1, List.drop_zero, hroom]

/-- C5: over any scanned page, `processBatch` enqueues, for each key whose
room identifier parses, `ROOM`-class expirations for exactly that room's
four base derived keys, all into one batch, and (absent a transport
failure) submits that whole batch in a single pipeline execution. -/
theorem processBatch_page_shape (rooms : List Str) (s : Store) :
    processBatchPipeline rooms = rooms.flatMap
      (fun roomKey =>
        match parseRoomId roomKey with
        | none => []
        | some roomId => (baseKeys roomId).map (fun key => (key, TTL.ROOM))) ∧
    processBatch false rooms s
      = Except.ok (expireAll s (processBatchPipeline rooms), processBatchPipeline rooms) :=
  ⟨processBatchPipeline_eq_flatMap rooms, rfl⟩

/-- C8: with a static keyspace (the sweep itself only moves TTLs, never
keys), one full fault-free sweep visits every room key exactly once:
the concatenation of the scanned pages is exactly the list of room keys,
and when the keyspace has no duplicates each room key is visited once. -/
theorem sweep_visits_each_room_once (s : Store) (hnd : s.live.Nodup) :
    sweepVisited noSweepFault s = roomKeysOf s ∧
    ∀ k ∈ roomKeysOf s, (sweepVisited noSweepFault s).count k = 1 := by
  have h := sweepGo_noFault_complete ((roomKeysOf s).length + 1) s 0 0 (by omega)
  have hv : sweepVisited noSweepFault s = roomKeysOf s := by
    unfold sweepVisited; rw [h.1, List.drop_zero]
  refine ⟨hv, ?_⟩
  intro k hk
  rw [hv]
  apply count_one_of_nodup _ _ (List.Nodup.filter _ hnd) hk

/-- A three-key store (two room keys, one unrelated key) exercising the
sweep. -/
def storeSweep : Store :=
  { live := [REDIS_KEY.ROOM ['a'], REDIS_KEY.ROOM ['b'], ['X']],
    members := fun _ => [],
    ttl := fun _ => none }

/-- Witness for C8 at a concrete store. -/
theorem sweep_visits_each_room_once_witness :
    storeSweep.live.Nodup ∧
    (sweepVisited noSweepFault storeSweep = roomKeysOf storeSweep ∧
     ∀ k ∈ roomKeysOf storeSweep, (sweepVisited noSweepFault storeSweep).count k = 1) :=
  ⟨by decide, sweep_visits_each_room_once storeSweep (by decide)⟩

/-- The scan page of C9: two malformed keys (`"Room:"` with an empty
identifier, `"Room"` with no separator) and one well-formed key. -/
def malformedPage : List Str := ["Room:".toList, "Room".toList, "Room:7".toList]

/-- The store C9 runs against: room `7`'s four base keys exist. -/
def storeMalformed : Store :=
  { live := ["Room:7".toList, "Room:7:Players".toList,
             "Room:7:Leaderboard".toList, "Room:7:CurrentQuiz".toList],
    members := fun _ => [],
    ttl := fun _ => none }

/-- C9: a page containing the malformed keys `"Room:"` and `"Room"` is
processed without throwing — both malformed keys parse to nothing and are
skipped per-key, the page still executes as one successful batch, and the
valid key `"Room:7"` in the same page still has its four base keys
enqueued and expired. -/
theorem processBatch_malformed_tolerated :
    parseRoomId "Room:".toList = none ∧
    parseRoomId "Room".toList = none ∧
    (processBatch false malformedPage storeMalformed).isOk = true ∧
    processBatchPipeline malformedPage
      = (baseKeys "7".toList).map (fun key => (key, TTL.ROOM)) ∧
    (expireAll storeMalformed (processBatchPipeline malformedPage)).ttl "Room:7".toList
      = some TTL.ROOM ∧
    (expireAll storeMalformed (processBatchPipeline malformedPage)).ttl
      "Room:7:Players".toList = some TTL.ROOM := by
  refine ⟨by decide, by decide, by decide, by decide, by decide, by decide⟩

/-- C2: during `setRoomTTL`, a failure of any one sub-task never cancels or
fails the siblings: whenever a sub-task's own round trips are healthy, its
pipelined batch is still executed, regardless of how the other sub-tasks'
round trips fail. -/
theorem setRoomTTL_fanout_isolation (f : Fault) (roomId : Str) (s : Store) :
    (f.baseExec = false →
      processBatchPipeline [REDIS_KEY.ROOM roomId] ∈ (setRoomTTLRun f roomId s).flushed) ∧
    (f.playersSmembers = false → f.playersExec = false →
      (smembers s (REDIS_KEY.ROOM_PLAYERS roomId)).map
          (fun p => (REDIS_KEY.PLAYER p, TTL.PLAYER))
        ∈ (setRoomTTLRun f roomId s).flushed) ∧
    (f.quizSmembers = false → f.quizExec = false →
      (smembers s (REDIS_KEY.ROOM_QUIZ_SET roomId)).flatMap
          (fun q => [(REDIS_KEY.ROOM_QUIZ roomId q, TTL.QUIZ),
                     (REDIS_KEY.ROOM_QUIZ_CHOICES roomId q, TTL.QUIZ)])
        ∈ (setRoomTTLRun f roomId s).flushed) :=
  ⟨fun h => base_batch_flushed f roomId s h,
   fun h1 h2 => players_batch_flushed f roomId s h1 h2,
   fun h1 h2 => quiz_batch_flushed f roomId s h1 h2⟩

/-- The fault schedule of the C2 witness: the player sub-task's `SMEMBERS`
round trip fails with a transport error, everything else is healthy. -/
def playersFault : Fault := ⟨false, true, false, false, false⟩

/-- The store of the C2 witness: room `5` with one quiz `k`. -/
def storeFanout : Store :=
  { live := [REDIS_KEY.ROOM ['5'], REDIS_KEY.ROOM_QUIZ_SET ['5'],
             REDIS_KEY.ROOM_QUIZ ['5'] ['k'], REDIS_KEY.ROOM_QUIZ_CHOICES ['5'] ['k']],
    members := fun k => if k = REDIS_KEY.ROOM_QUIZ_SET ['5'] then [['k']] else [],
    ttl := fun _ => none }

/-- Witness for C2: with the player sub-task failing, the base and quiz
batches are still executed. -/
theorem setRoomTTL_fanout_isolation_witness :
    playersFault.baseExec = false ∧
    playersFault.quizSmembers = false ∧
    playersFault.quizExec = false ∧
    processBatchPipeline [REDIS_KEY.ROOM ['5']]
      ∈ (setRoomTTLRun playersFault ['5'] storeFanout).flushed ∧
    (smembers storeFanout (REDIS_KEY.ROOM_QUIZ_SET ['5'])).flatMap
        (fun q => [(REDIS_KEY.ROOM_QUIZ ['5'] q, TTL.QUIZ),
                   (REDIS_KEY.ROOM_QUIZ_CHOICES ['5'] q, TTL.QUIZ)])
      ∈ (setRoomTTLRun playersFault ['5'] storeFanout).flushed :=
  ⟨rfl, rfl, rfl,
   (setRoomTTL_fanout_isolation playersFault ['5'] storeFanout).1 rfl,
   (setRoomTTL_fanout_isolation playersFault ['5'] storeFanout).2.2 rfl rfl⟩

/-- C7: `refreshRoom` never creates keys: on an identifier none of whose
derived keys exist, all three sub-tasks complete without error and the
store is left completely unchanged. -/
theorem refreshRoom_creates_nothing (roomId : Str) (s : Store)
    (hid : ':' ∉ roomId)
    (hbase : ∀ b ∈ baseKeys roomId, b ∉ s.live)
    (hqs : REDIS_KEY.ROOM_QUIZ_SET roomId ∉ s.live) :
    (setRoomTTLRun noFault roomId s).store = s ∧
    (setRoomTTLRun noFault roomId s).outcomes = [true, true, true] := by
  constructor
  · rw [setRoomTTLRun_noFault_store]
    apply expireAll_of_dead
    intro c hc
    unfold refreshCmds at hc
    rcases List.mem_append.mp hc with hc | hc
    · rcases List.mem_append.mp hc with hc | hc
      · by_cases hne : roomId = []
        · subst hne
          rw [processBatchPipeline_single, parseRoomId_ROOM] at hc
          simp [takeUntilColon] at hc
        · rw [processBatchPipeline_ROOM roomId hid hne] at hc
          rcases List.mem_map.mp hc with ⟨b, hb, hbc⟩
          rw [← hbc]
          exact hbase b hb
      · have hpl : REDIS_KEY.ROOM_PLAYERS roomId ∉ s.live :=
          hbase _ (by simp [baseKeys])
        simp [smembers, hpl] at hc
    · simp [smembers, hqs] at hc
  · rfl

/-- The empty store of the C7 witness. -/
def storeEmpty : Store :=
  { live := [REDIS_KEY.ROOM ['9']], members := fun _ => [], ttl := fun _ => none }

/-- Witness for C7: `refreshRoom("nonexistent")` against a store holding
only an unrelated room leaves the store untouched. -/
theorem refreshRoom_creates_nothing_witness :
    (':' ∉ "nonexistent".toList) ∧
    (∀ b ∈ baseKeys "nonexistent".toList, b ∉ storeEmpty.live) ∧
    (REDIS_KEY.ROOM_QUIZ_SET "nonexistent".toList ∉ storeEmpty.live) ∧
    ((setRoomTTLRun noFault "nonexistent".toList storeEmpty).store = storeEmpty ∧
     (setRoomTTLRun noFault "nonexistent".toList storeEmpty).outcomes
       = [true, true, true]) :=
  ⟨by decide, by decide, by decide,
   refreshRoom_creates_nothing "nonexistent".toList storeEmpty
     (by decide) (by decide) (by decide)⟩

/-- C10 counterexample: for `roomId = ":x"` the prefix before the first
colon is empty, so the claim's reading ("the four base keys it expires are
those of the prefix of roomId before its first colon") would have the base
sub-task expire the four base keys derived from the empty identifier — but
the code's falsy check skips the key entirely and issues no base-key
expiration at all. -/
theorem base_reparse_colon_cex :
    processBatchPipeline [REDIS_KEY.ROOM [':', 'x']] = [] ∧
    (baseKeys (takeUntilColon [':', 'x'])).map (fun key => (key, TTL.ROOM)) ≠ [] := by
  refine ⟨by decide, by decide⟩

/-- C10 (amended): the base-key sub-task of `setRoomTTL` re-derives the
identifier from the constructed key `Room:{roomId}` as the prefix of
`roomId` before its first colon; when that prefix is non-empty the four
base keys it expires are exactly those of the prefix (equal to `roomId`
when `roomId` has no colon), and when the prefix is empty (`roomId` empty
or beginning with a colon) no base-key expiration is issued at all — while
for the empty `roomId` the player and quiz sub-tasks still run and submit
their batches. -/
theorem base_reparse_via_split (roomId : Str) (s : Store) :
    (takeUntilColon roomId ≠ [] →
      processBatchPipeline [REDIS_KEY.ROOM roomId]
        = (baseKeys (takeUntilColon roomId)).map (fun key => (key, TTL.ROOM))) ∧
    (takeUntilColon roomId = [] →
      processBatchPipeline [REDIS_KEY.ROOM roomId] = []) ∧
    (roomId = [] →
      (smembers s (REDIS_KEY.ROOM_PLAYERS [])).map
          (fun p => (REDIS_KEY.PLAYER p, TTL.PLAYER))
        ∈ (setRoomTTLRun noFault [] s).flushed ∧
      (smembers s (REDIS_KEY.ROOM_QUIZ_SET [])).flatMap
          (fun q => [(REDIS_KEY.ROOM_QUIZ [] q, TTL.QUIZ),
                     (REDIS_KEY.ROOM_QUIZ_CHOICES [] q, TTL.QUIZ)])
        ∈ (setRoomTTLRun noFault [] s).flushed) := by
  refine ⟨?_, ?_, ?_⟩
  · intro h
    rw [processBatchPipeline_single, parseRoomId_ROOM, if_neg h]
  · intro h
    rw [processBatchPipeline_single, parseRoomId_ROOM, if_pos h]
  · intro h
    exact ⟨players_batch_flushed noFault [] s rfl rfl,
           quiz_batch_flushed noFault [] s rfl rfl⟩

/-- Witness for (amended) C10 at `roomId = "42"` and `roomId = ""`. -/
theorem base_reparse_via_split_witness :
    (takeUntilColon "42".toList ≠ [] ∧
     processBatchPipeline [REDIS_KEY.ROOM "42".toList]
       = (baseKeys (takeUntilColon "42".toList)).map (fun key => (key, TTL.ROOM))) ∧
    (([] : Str) = [] ∧
     (smembers storeEmpty (REDIS_KEY.ROOM_PLAYERS [])).map
         (fun p => (REDIS_KEY.PLAYER p, TTL.PLAYER))
       ∈ (setRoomTTLRun noFault [] storeEmpty).flushed) :=
  ⟨⟨by decide, (base_reparse_via_split "42".toList storeEmpty).1 (by decide)⟩,
   ⟨rfl, ((base_reparse_via_split [] storeEmpty).2.2 rfl).1⟩⟩

/-- The store of the C4 scenario: room `42` with players `p1`, `p2` and
quiz `q1`; all derived keys of the scenario exist. -/
def storeScenario : Store :=
  { live := [REDIS_KEY.ROOM "42".toList, REDIS_KEY.ROOM_PLAYERS "42".toList,
             REDIS_KEY.ROOM_LEADERBOARD "42".toList,
             REDIS_KEY.ROOM_CURRENT_QUIZ "42".toList,
             REDIS_KEY.ROOM_QUIZ_SET "42".toList,
             REDIS_KEY.PLAYER "p1".toList, REDIS_KEY.PLAYER "p2".toList,
             REDIS_KEY.ROOM_QUIZ "42".toList "q1".toList,
             REDIS_KEY.ROOM_QUIZ_CHOICES "42".toList "q1".toList],
    members := fun k =>
      if k = REDIS_KEY.ROOM_PLAYERS "42".toList then ["p1".toList, "p2".toList]
      else if k = REDIS_KEY.ROOM_QUIZ_SET "42".toList then ["q1".toList]
      else [],
    ttl := fun _ => none }

/-- C4: `refreshRoom("42")` on the scenario store sets the `ROOM` class on
the four base keys, the `PLAYER` class on `Player:p1` and `Player:p2`, the
`QUIZ` class on `Room:42:Quiz:q1` and its choices key — and the batches it
submits contain exactly the keys derived from the two membership sets,
never an invented identifier. -/
theorem refreshRoom_scenario_42 :
    (setRoomTTLRun noFault "42".toList storeScenario).store.ttl
        (REDIS_KEY.ROOM "42".toList) = some TTL.ROOM ∧
    (setRoomTTLRun noFault "42".toList storeScenario).store.ttl
        (REDIS_KEY.ROOM_PLAYERS "42".toList) = some TTL.ROOM ∧
    (setRoomTTLRun noFault "42".toList storeScenario).store.ttl
        (REDIS_KEY.ROOM_LEADERBOARD "42".toList) = some TTL.ROOM ∧
    (setRoomTTLRun noFault "42".toList storeScenario).store.ttl
        (REDIS_KEY.ROOM_CURRENT_QUIZ "42".toList) = some TTL.ROOM ∧
    (setRoomTTLRun noFault "42".toList storeScenario).store.ttl
        (REDIS_KEY.PLAYER "p1".toList) = some TTL.PLAYER ∧
    (setRoomTTLRun noFault "42".toList storeScenario).store.ttl
        (REDIS_KEY.PLAYER "p2".toList) = some TTL.PLAYER ∧
    (setRoomTTLRun noFault "42".toList storeScenario).store.ttl
        (REDIS_KEY.ROOM_QUIZ "42".toList "q1".toList) = some TTL.QUIZ ∧
    (setRoomTTLRun noFault "42".toList storeScenario).store.ttl
        (REDIS_KEY.ROOM_QUIZ_CHOICES "42".toList "q1".toList) = some TTL.QUIZ ∧
    (setRoomTTLRun noFault "42".toList storeScenario).flushed =
      [(baseKeys "42".toList).map (fun key => (key, TTL.ROOM)),
       [(REDIS_KEY.PLAYER "p1".toList, TTL.PLAYER),
        (REDIS_KEY.PLAYER "p2".toList, TTL.PLAYER)],
       [(REDIS_KEY.ROOM_QUIZ "42".toList "q1".toList, TTL.QUIZ),
        (REDIS_KEY.ROOM_QUIZ_CHOICES "42".toList "q1".toList, TTL.QUIZ)]] := by
  refine ⟨by decide, by decide, by decide, by decide, by decide, by decide, by decide,
    by decide, by decide⟩

/-- C6: calling `refreshRoom(id)` twice in succession is idempotent: the
second call leaves every key's TTL exactly as one call does, and after the
second call every affected live key carries precisely its configured class
value — the base keys the `ROOM` class, player records the `PLAYER` class,
quiz records and choices the `QUIZ` class (not doubled, not summed). -/
theorem refreshRoom_idempotent (roomId : Str) (s : Store)
    (hid : ':' ∉ roomId) (hne : roomId ≠ []) :
    (∀ k, (setRoomTTLRun noFault roomId (setRoomTTLRun noFault roomId s).store).store.ttl k
        = (setRoomTTLRun noFault roomId s).store.ttl k) ∧
    (∀ b ∈ baseKeys roomId, b ∈ s.live →
      (setRoomTTLRun noFault roomId (setRoomTTLRun noFault roomId s).store).store.ttl b
        = some TTL.ROOM) ∧
    (∀ p ∈ smembers s (REDIS_KEY.ROOM_PLAYERS roomId), REDIS_KEY.PLAYER p ∈ s.live →
      (setRoomTTLRun noFault roomId (setRoomTTLRun noFault roomId s).store).store.ttl
          (REDIS_KEY.PLAYER p) = some TTL.PLAYER) ∧
    (∀ q ∈ smembers s (REDIS_KEY.ROOM_QUIZ_SET roomId),
      (REDIS_KEY.ROOM_QUIZ roomId q ∈ s.live →
        (setRoomTTLRun noFault roomId (setRoomTTLRun noFault roomId s).store).store.ttl
            (REDIS_KEY.ROOM_QUIZ roomId q) = some TTL.QUIZ) ∧
      (REDIS_KEY.ROOM_QUIZ_CHOICES roomId q ∈ s.live →
        (setRoomTTLRun noFault roomId (setRoomTTLRun noFault roomId s).store).store.ttl
            (REDIS_KEY.ROOM_QUIZ_CHOICES roomId q) = some TTL.QUIZ)) := by
  have h1 : (setRoomTTLRun noFault roomId s).store = expireAll s (refreshCmds roomId s) :=
    setRoomTTLRun_noFault_store roomId s
  have hC : refreshCmds roomId (setRoomTTLRun noFault roomId s).store
      = refreshCmds roomId s := by
    rw [h1, refreshCmds_expireAll]
  have h2 : (setRoomTTLRun noFault roomId (setRoomTTLRun noFault roomId s).store).store
      = expireAll s (refreshCmds roomId s ++ refreshCmds roomId s) := by
    rw [setRoomTTLRun_noFault_store, hC, h1, ← expireAll_append]
  have hbase : processBatchPipeline [REDIS_KEY.ROOM roomId]
      = (baseKeys roomId).map (fun key => (key, TTL.ROOM)) :=
    processBatchPipeline_ROOM roomId hid hne
  have hCeq : refreshCmds roomId s =
      ((baseKeys roomId).map (fun key => (key, TTL.ROOM))
        ++ (smembers s (REDIS_KEY.ROOM_PLAYERS roomId)).map
             (fun p => (REDIS_KEY.PLAYER p, TTL.PLAYER)))
        ++ (smembers s (REDIS_KEY.ROOM_QUIZ_SET roomId)).flatMap
             (fun q => [(REDIS_KEY.ROOM_QUIZ roomId q, TTL.QUIZ),
                        (REDIS_KEY.ROOM_QUIZ_CHOICES roomId q, TTL.QUIZ)]) := by
    rw [refreshCmds, hbase]
  have httl : ∀ k, k ∈ s.live → ∀ v, lastVal (refreshCmds roomId s) k = some v →
      (setRoomTTLRun noFault roomId (setRoomTTLRun noFault roomId s).store).store.ttl k
        = some v := by
    intro k hk v hv
    rw [h2, ttl_expireAll, if_pos hk, lastVal_append, hv]
  refine ⟨?_, ?_, ?_, ?_⟩
  · intro k
    rw [h2, h1, ttl_expireAll, ttl_expireAll, lastVal_append]
    by_cases hk : k ∈ s.live <;> cases hl : lastVal (refreshCmds roomId s) k <;>
      simp [hk, hl]
  · intro b hb hlive
    apply httl b hlive
    have hq : lastVal ((smembers s (REDIS_KEY.ROOM_QUIZ_SET roomId)).flatMap
        (fun q => [(REDIS_KEY.ROOM_QUIZ roomId q, TTL.QUIZ),
                   (REDIS_KEY.ROOM_QUIZ_CHOICES roomId q, TTL.QUIZ)])) b = none := by
      apply lastVal_eq_none
      intro c hc
      rcases List.mem_flatMap.mp hc with ⟨q, _, hcq⟩
      rcases List.mem_cons.mp hcq with h | h
      · rw [h]
        exact Ne.symm (baseKey_ne_quizKey roomId q b hb).1
      · have : c = (REDIS_KEY.ROOM_QUIZ_CHOICES roomId q, TTL.QUIZ) := by
          simpa using h
        rw [this]
        exact Ne.symm (baseKey_ne_quizKey roomId q b hb).2
    have hp : lastVal ((smembers s (REDIS_KEY.ROOM_PLAYERS roomId)).map
        (fun p => (REDIS_KEY.PLAYER p, TTL.PLAYER))) b = none := by
      apply lastVal_eq_none
      intro c hc
      rcases List.mem_map.mp hc with ⟨p, _, hcp⟩
      rw [← hcp]
      exact baseKey_ne_playerKey roomId p b hb
    have hbv : lastVal ((baseKeys roomId).map (fun key => (key, TTL.ROOM))) b
        = some TTL.ROOM := by
      apply lastVal_const
      · rw [List.map_map]
        simpa using hb
      · intro c hc
        rcases List.mem_map.mp hc with ⟨x, _, hxc⟩
        rw [← hxc]
    rw [hCeq]
    simp only [lastVal_append, hq, hp, hbv]
  · intro p hp hlive
    apply httl _ hlive
    have hq : lastVal ((smembers s (REDIS_KEY.ROOM_QUIZ_SET roomId)).flatMap
        (fun q => [(REDIS_KEY.ROOM_QUIZ roomId q, TTL.QUIZ),
                   (REDIS_KEY.ROOM_QUIZ_CHOICES roomId q, TTL.QUIZ)]))
        (REDIS_KEY.PLAYER p) = none := by
      apply lastVal_eq_none
      intro c hc
      rcases List.mem_flatMap.mp hc with ⟨q, _, hcq⟩
      rcases List.mem_cons.mp hcq with h | h
      · rw [h]
        exact Ne.symm (playerKey_ne_quizKey p roomId q).1
      · have : c = (REDIS_KEY.ROOM_QUIZ_CHOICES roomId q, TTL.QUIZ) := by
          simpa using h
        rw [this]
        exact Ne.symm (playerKey_ne_quizKey p roomId q).2
    have hpv : lastVal ((smembers s (REDIS_KEY.ROOM_PLAYERS roomId)).map
        (fun p => (REDIS_KEY.PLAYER p, TTL.PLAYER))) (REDIS_KEY.PLAYER p)
        = some TTL.PLAYER := by
      apply lastVal_const
      · rw [List.map_map]
        exact List.mem_map.mpr ⟨p, hp, rfl⟩
      · intro c hc
        rcases List.mem_map.mp hc with ⟨x, _, hxc⟩
        rw [← hxc]
    rw [hCeq]
    simp only [lastVal_append, hq, hpv]
  · intro q hq4
    have hconst : ∀ c ∈ (smembers s (REDIS_KEY.ROOM_QUIZ_SET roomId)).flatMap
        (fun q => [(REDIS_KEY.ROOM_QUIZ roomId q, TTL.QUIZ),
                   (REDIS_KEY.ROOM_QUIZ_CHOICES roomId q, TTL.QUIZ)]),
        c.2 = TTL.QUIZ := by
      intro c hc
      rcases List.mem_flatMap.mp hc with ⟨x, _, hcx⟩
      rcases List.mem_cons.mp hcx with h | h
      · rw [h]
      · have : c = (REDIS_KEY.ROOM_QUIZ_CHOICES roomId x, TTL.QUIZ) := by
          simpa using h
        rw [this]
    constructor
    · intro hlive
      apply httl _ hlive
      have hqv : lastVal ((smembers s (REDIS_KEY.ROOM_QUIZ_SET roomId)).flatMap
          (fun q => [(REDIS_KEY.ROOM_QUIZ roomId q, TTL.QUIZ),
                     (REDIS_KEY.ROOM_QUIZ_CHOICES roomId q, TTL.QUIZ)]))
          (REDIS_KEY.ROOM_QUIZ roomId q) = some TTL.QUIZ := by
        apply lastVal_const
        · apply List.mem_map.mpr
          refine ⟨(REDIS_KEY.ROOM_QUIZ roomId q, TTL.QUIZ), ?_, rfl⟩
          exact List.mem_flatMap.mpr ⟨q, hq4, by simp⟩
        · exact hconst
      rw [hCeq]
      simp only [lastVal_append, hqv]
    · intro hlive
      apply httl _ hlive
      have hqv : lastVal ((smembers s (REDIS_KEY.ROOM_QUIZ_SET roomId)).flatMap
          (fun q => [(REDIS_KEY.ROOM_QUIZ roomId q, TTL.QUIZ),
                     (REDIS_KEY.ROOM_QUIZ_CHOICES roomId q, TTL.QUIZ)]))
          (REDIS_KEY.ROOM_QUIZ_CHOICES roomId q) = some TTL.QUIZ := by
        apply lastVal_const
        · apply List.mem_map.mpr
          refine ⟨(REDIS_KEY.ROOM_QUIZ_CHOICES roomId q, TTL.QUIZ), ?_, rfl⟩
          exact List.mem_flatMap.mpr ⟨q, hq4, by simp⟩
        · exact hconst
      rw [hCeq]
      simp only [lastVal_append, hqv]

/-- The store of the C6 witness: room `7` with one player `a`. -/
def storeIdem : Store :=
  { live := [REDIS_KEY.ROOM "7".toList, REDIS_KEY.ROOM_PLAYERS "7".toList,
             REDIS_KEY.PLAYER "a".toList],
    members := fun k => if k = REDIS_KEY.ROOM_PLAYERS "7".toList then ["a".toList] else [],
    ttl := fun _ => none }

/-- Witness for C6 at `roomId = "7"`. -/
theorem refreshRoom_idempotent_witness :
    (':' ∉ "7".toList) ∧ ("7".toList ≠ ([] : Str)) ∧
    ((∀ k, (setRoomTTLRun noFault "7".toList
            (setRoomTTLRun noFault "7".toList storeIdem).store).store.ttl k
        = (setRoomTTLRun noFault "7".toList storeIdem).store.ttl k) ∧
     (∀ b ∈ baseKeys "7".toList, b ∈ storeIdem.live →
       (setRoomTTLRun noFault "7".toList
            (setRoomTTLRun noFault "7".toList storeIdem).store).store.ttl b
         = some TTL.ROOM) ∧
     (∀ p ∈ smembers storeIdem (REDIS_KEY.ROOM_PLAYERS "7".toList),
       REDIS_KEY.PLAYER p ∈ storeIdem.live →
       (setRoomTTLRun noFault "7".toList
            (setRoomTTLRun noFault "7".toList storeIdem).store).store.ttl
           (REDIS_KEY.PLAYER p) = some TTL.PLAYER) ∧
     (∀ q ∈ smembers storeIdem (REDIS_KEY.ROOM_QUIZ_SET "7".toList),
       (REDIS_KEY.ROOM_QUIZ "7".toList q ∈ storeIdem.live →
         (setRoomTTLRun noFault "7".toList
              (setRoomTTLRun noFault "7".toList storeIdem).store).store.ttl
             (REDIS_KEY.ROOM_QUIZ "7".toList q) = some TTL.QUIZ) ∧
       (REDIS_KEY.ROOM_QUIZ_CHOICES "7".toList q ∈ storeIdem.live →
         (setRoomTTLRun noFault "7".toList
              (setRoomTTLRun noFault "7".toList storeIdem).store).store.ttl
             (REDIS_KEY.ROOM_QUIZ_CHOICES "7".toList q) = some TTL.QUIZ))) :=
  ⟨by decide, by decide,
   refreshRoom_idempotent "7".toList storeIdem (by decide) (by decide)⟩
